import Mathlib

/-!
Shallow embedding of the Kairos interactive installer TUI (Itxaka/tui).

The embedding translates, from the Go sources:
* the install-process monitor page (`installProcessPage` and its
  `Update` handling of `CheckInstallerMsg`),
* the top-level controller (`model.Update`: key hijacking during the
  install, quit keys, back navigation, advance/goto navigation),
* the customization page's `Init` (dynamic page registration),
* the configuration writer (`NewInstallConfig` in config.go).

Go channels are made explicit: one `Update` poll observes a single
`PollResult` (a delivered line, a closed output channel, the completion
signal, or nothing).  Go maps with `int` keys are association lists with
Go's update-or-insert assignment semantics.
-/

namespace Tui

/-- The tag prepended by the reader goroutine to step-change lines
(constant `StepPrefix` in constants.go). -/
def stepTag : String := "STEP:"

/-- The tag prepended to error lines (constant `ErrorPrefix` in
constants.go). -/
def errorTag : String := "ERROR:"

/-- Character-list prefix test (kernel-reducible). -/
def listIsPrefix : List Char → List Char → Bool
  | [], _ => true
  | _ :: _, [] => false
  | a :: as, b :: bs => a == b && listIsPrefix as bs

/-- Go's `strings.HasPrefix(s, tag)`, over the character data. -/
def strHasTag (tag s : String) : Bool :=
  listIsPrefix tag.data s.data

/-- Go's `strings.TrimPrefix`: drop `tag` from the front of `s` when it
is a prefix, otherwise return `s` unchanged. -/
def dropTag (tag s : String) : String :=
  if strHasTag tag s then ⟨s.data.drop tag.data.length⟩ else s

/-- Go's `strings.Contains`: `pat` occurs as a contiguous substring of
`s` (character-based; the sources only use ASCII identifiers here). -/
def strContains (s pat : String) : Bool :=
  (List.range (s.data.length + 1)).any
    (fun i => listIsPrefix pat.data (s.data.drop i))

/-- The fixed ordered step list of `newInstallProcessPage`. -/
def installSteps : List String :=
  [ "Preparing installation...",
    "Partitioning disk...",
    "Formatting partitions...",
    "Installing base system...",
    "Configuring bootloader...",
    "Finalizing installation...",
    "Installation complete!" ]

/-- The UI-visible state of the install process page: the `progress`
and `step` fields plus the page's own `steps` list.  The two channels
(`output`, `done`) are modelled by `PollResult` below. -/
structure installProcessPage where
  progress : Nat
  step : String
  steps : List String
  deriving Repr, DecidableEq

/-- `newInstallProcessPage` from the source. -/
def newInstallProcessPage : installProcessPage :=
  { progress := 0
    step := "Preparing installation..."
    steps := installSteps }

/-- What one non-blocking poll (`select` in `Update`) observes:
a value delivered on the output channel, the output channel closed
(`ok == false`), the `done` channel closed (process finished), or
nothing ready (the `default` branch). -/
inductive PollResult where
  | line (s : String)
  | outputClosed
  | doneSignal
  | empty
  deriving Repr, DecidableEq

/-- Commands the install page's update returns: an immediate
re-check (`func() tea.Msg { return CheckInstallerMsg{} }`) or a delayed
re-check (`tea.Tick`).  `none` (Go `nil`) means polling stops. -/
inductive InstallCmd where
  | checkNow
  | tickCheck
  deriving Repr, DecidableEq

/-- The `CheckInstallerMsg` branch of `installProcessPage.Update`
(src/unnamed/part_001, lines 120-169).  The loop over `p.steps` sets
`progress` to the FIRST index whose label equals the notified step name
(`break` after the first match); an `ERROR:` line overwrites `step` and
returns a nil command; the done signal jumps to the terminal step. -/
def installProcessPage.update (p : installProcessPage) (r : PollResult) :
    installProcessPage × Option InstallCmd :=
  match r with
  | .line output =>
      if strHasTag stepTag output then
        let stepName := dropTag stepTag output
        let p' :=
          match p.steps.findIdx? (fun s => s == stepName) with
          | some i => { p with progress := i, step := stepName }
          | none => p
        (p', some .checkNow)
      else if strHasTag errorTag output then
        ({ p with step := "Error: " ++ dropTag errorTag output }, none)
      else
        (p, some .checkNow)
  | .outputClosed => (p, none)
  | .doneSignal =>
      ({ p with progress := p.steps.length - 1,
                step := p.steps.getD (p.steps.length - 1) "" }, none)
  | .empty => (p, some .tickCheck)

/-- Iterate the install page over a sequence of poll observations. -/
def installRun (p : installProcessPage) : List PollResult → installProcessPage
  | [] => p
  | r :: rest => installRun (installProcessPage.update p r).1 rest

/-- Messages handled by `model.Update`: key events, terminal resizes,
the two navigation intents, and the installer polling message (which in
this embedding carries the poll observation). -/
inductive Msg where
  | key (k : String)
  | windowSize (w h : Nat)
  | nextPage
  | goToPage (id : String)
  | checkInstaller (r : PollResult)
  deriving Repr, DecidableEq

/-- Whether a message is a `tea.KeyMsg`. -/
def Msg.isKey : Msg → Bool
  | .key _ => true
  | _ => false

/-- Commands returned by `model.Update`: `tea.Quit`, running
`pages[idx].Init()`, a command returned by the current page's update,
or `tea.Batch(cmd, pages[idx].Init())` — at both batch call sites the
second argument is an init and the first the page's command, so the
constructor carries exactly those. -/
inductive Cmd where
  | quit
  | initOf (idx : Nat)
  | pageCmd (c : InstallCmd)
  | batchInit (a : Option InstallCmd) (idx : Nat)
  deriving Repr, DecidableEq

/-- The identifier returned by `installProcessPage.ID()`. -/
def installProcessID : String := "install_process"

/-- The navigation-relevant projection of the Go `model` struct: the
page registry is carried as its ordered identifier list, and the only
page whose local state feeds back into the controller (the install
page, read by the key hijack) is carried explicitly.  Other pages'
local state never influences `currentPageID`, `navigationStack` or the
hijack, so it is not tracked. -/
structure model where
  pageIDs : List String
  currentPageID : String
  navigationStack : List String
  installPage : installProcessPage
  width : Nat
  height : Nat
  deriving Repr, DecidableEq

/-- The page identifiers of `initialModel`, in registry order. -/
def wizardPageIDs : List String :=
  [ "disk_selection", "confirmation", "install_options", "customization",
    "user_password", "ssh_keys", installProcessID ]

/-- The Go type assertion `pages[idx].(*installProcessPage)`: in the
program exactly one page is of that type and its identifier is
`install_process`, so the assertion holds iff the identifier at `idx`
is `install_process`. -/
def model.isInstallAt (m : model) (idx : Nat) : Bool :=
  m.pageIDs.getD idx "" == installProcessID

/-- `mainModel.pages[currentIdx].Update(msg)`: only the current page
receives the message.  The install page reacts to `CheckInstallerMsg`
(via `installProcessPage.update`) and returns `(p, nil)` on everything
else; the other pages' updates touch neither the navigation fields nor
the install page's state, so at this projection they are the identity
with their returned command not tracked (it is never a navigation
message itself, only a closure producing one later). -/
def model.pagesUpdate (m : model) (idx : Nat) (msg : Msg) :
    model × Option InstallCmd :=
  if m.isInstallAt idx then
    match msg with
    | .checkInstaller r =>
        let res := installProcessPage.update m.installPage r
        ({ m with installPage := res.1 }, res.2)
    | _ => (m, none)
  else
    (m, none)

/-- The page-navigation tail of `model.Update` (after the hijack and
the key switch): run the current page's update, then push/activate on
`NextPageMsg` when a next page exists, push/activate on `GoToPageMsg`
when the identifier is non-empty and registered, else return the page
command alone. -/
def model.navSection (m : model) (currentIdx : Nat) (msg : Msg) :
    model × Option Cmd :=
  let res := m.pagesUpdate currentIdx msg
  let m1 := res.1
  let cmd := res.2
  match msg with
  | .nextPage =>
      if currentIdx < m1.pageIDs.length - 1 then
        ({ m1 with
            navigationStack := m1.navigationStack ++ [m1.currentPageID],
            currentPageID := m1.pageIDs.getD (currentIdx + 1) "" },
         some (.batchInit cmd (currentIdx + 1)))
      else (m1, cmd.map Cmd.pageCmd)
  | .goToPage id =>
      if id ≠ "" then
        match m1.pageIDs.findIdx? (fun s => s == id) with
        | some i =>
            ({ m1 with
                navigationStack := m1.navigationStack ++ [m1.currentPageID],
                currentPageID := id },
             some (.batchInit cmd i))
        | none => (m1, cmd.map Cmd.pageCmd)
      else (m1, cmd.map Cmd.pageCmd)
  | _ => (m1, cmd.map Cmd.pageCmd)

/-- `model.Update` (model.go, lines 1277-1360): locate the current page
by identifier (silent no-op when absent); hijack every key while the
install page is current (swallow below the terminal step, quit at or
beyond it); handle resize; quit on `ctrl+c`/`q`; on `esc` with a
non-empty stack pop the most recent identifier, make it current, and
return `pages[currentIdx].Init()` — `currentIdx` still being the index
of the page that was current BEFORE the pop; otherwise fall through to
the navigation section. -/
def model.update (m : model) (msg : Msg) : model × Option Cmd :=
  match m.pageIDs.findIdx? (fun s => s == m.currentPageID) with
  | none => (m, none)
  | some currentIdx =>
      if m.isInstallAt currentIdx && msg.isKey then
        if m.installPage.progress < m.installPage.steps.length - 1 then
          (m, none)
        else
          (m, some .quit)
      else
        match msg with
        | .windowSize w h => ({ m with width := w, height := h }, none)
        | .key k =>
            if k == "ctrl+c" || k == "q" then (m, some .quit)
            else if k == "esc" && !m.navigationStack.isEmpty then
              ({ m with
                  currentPageID := m.navigationStack.getLastD "",
                  navigationStack := m.navigationStack.dropLast },
               some (.initOf currentIdx))
            else
              m.navSection currentIdx msg
        | _ => m.navSection currentIdx msg

/-- Iterate `model.update` over a message trace. -/
def model.run (m : model) : List Msg → model
  | [] => m
  | msg :: rest => model.run (model.update m msg).1 rest

/-- The condition under which `model.update` performs a successful
forward transition (pushes onto the navigation stack), read off the
source: a `NextPageMsg` with a following page, or a `GoToPageMsg` whose
identifier is non-empty and registered, while the current page is
resolvable. -/
def isForwardB (m : model) (msg : Msg) : Bool :=
  match m.pageIDs.findIdx? (fun s => s == m.currentPageID) with
  | none => false
  | some currentIdx =>
      match msg with
      | .nextPage => currentIdx < m.pageIDs.length - 1
      | .goToPage id => id != "" && (m.pageIDs.findIdx? (fun s => s == id)).isSome
      | _ => false

/-- The condition under which `model.update` performs a successful back
(pops the navigation stack): the back key with a non-empty stack, while
the current page is resolvable and is not the install page (whose key
hijack swallows the back key). -/
def isBackB (m : model) (msg : Msg) : Bool :=
  match m.pageIDs.findIdx? (fun s => s == m.currentPageID) with
  | none => false
  | some currentIdx =>
      !m.isInstallAt currentIdx &&
        (match msg with
         | .key k => k == "esc" && !m.navigationStack.isEmpty
         | _ => false)

/-- Count the successful forward transitions along a trace. -/
def countFwd (m : model) : List Msg → Nat
  | [] => 0
  | msg :: rest =>
      (if isForwardB m msg then 1 else 0) + countFwd (model.update m msg).1 rest

/-- Count the successful backs along a trace. -/
def countBck (m : model) : List Msg → Nat
  | [] => 0
  | msg :: rest =>
      (if isBackB m msg then 1 else 0) + countBck (model.update m msg).1 rest

/-- The fields of a plugin prompt descriptor that `customizationPage.Init`
reads: the target key path and the free-text/boolean flag. -/
structure YAMLPrompt where
  yamlSection : String
  bool : Bool
  deriving Repr, DecidableEq

/-- `idFromSection` (src/unnamed/part_000): the page identifier is the
descriptor's key path itself. -/
def idFromSection (sec : YAMLPrompt) : String :=
  sec.yamlSection

/-- Go map assignment `m[k] = v` on an `int`-keyed map, kept as an
association list in insertion order: replace the value when the key is
present, append otherwise.  `len` of the Go map equals the list length
(keys stay unique under this operation). -/
def mapInsert (m : List (Nat × String)) (k : Nat) (v : String) :
    List (Nat × String) :=
  if m.any (fun kv => kv.1 == k) then
    m.map (fun kv => if kv.1 == k then (k, v) else kv)
  else
    m ++ [(k, v)]

/-- `checkPageExists` (customizationPage.go, lines 256-263): true when
`pageID` occurs as a substring of any VALUE of the cursor map. -/
def checkPageExists (pageID : String) (options : List (Nat × String)) : Bool :=
  options.any (fun opt => strContains opt.2 pageID)

/-- The state `customizationPage.Init` mutates: the page's menu
`options` and `cursorWithIds` map, plus the registry of pages it
appends to `mainModel.pages` (recorded as identifier and widget kind,
`true` for `newGenericBoolPage`, `false` for `newGenericQuestionPage`;
the appended page's identifier is `idFromSection` either way). -/
structure custState where
  options : List String
  cursorWithIds : List (Nat × String)
  registeredPages : List (String × Bool)
  deriving Repr, DecidableEq

/-- The menu state built by `newCustomizationPage`. -/
def newCustomizationPage : custState :=
  { options := ["User & Password", "SSH Keys"]
    cursorWithIds := [(0, "user_password"), (1, "ssh_keys")]
    registeredPages := [] }

/-- The descriptor loop of `customizationPage.Init` (customizationPage.go,
lines 287-310): `startIdx` is frozen at `len(p.options)` before the
loop, `i` counts every descriptor (also skipped ones), and a descriptor
is skipped when its identifier already occurs (by substring) among the
cursor-map values. -/
def custInitLoop (startIdx : Nat) : custState → Nat → List YAMLPrompt → custState
  | s, _, [] => s
  | s, i, prompt :: rest =>
      if checkPageExists (idFromSection prompt) s.cursorWithIds then
        custInitLoop startIdx s (i + 1) rest
      else
        let optIdx := startIdx + i
        let pageID := idFromSection prompt
        let s' :=
          if prompt.bool = false then
            { s with
                options := s.options ++ ["Configure " ++ prompt.yamlSection],
                cursorWithIds := mapInsert s.cursorWithIds optIdx pageID,
                registeredPages := s.registeredPages ++ [(pageID, false)] }
          else
            { s with
                options := s.options ++ ["Configure " ++ prompt.yamlSection],
                cursorWithIds := mapInsert s.cursorWithIds optIdx pageID,
                registeredPages := s.registeredPages ++ [(pageID, true)] }
        custInitLoop startIdx s' (i + 1) rest

/-- `customizationPage.Init` (customizationPage.go, lines 279-320): run
the descriptor loop when the list is non-empty, then append the
summary entry at key `len(p.cursorWithIds)` unless a `summary` page
already exists. -/
def custInit (s : custState) (yaML : List YAMLPrompt) : custState :=
  let s1 := if yaML.length > 0 then custInitLoop s.options.length s 0 yaML else s
  if !checkPageExists "summary" s1.cursorWithIds then
    { s1 with
        options := s1.options ++ ["Finish Customization and start Installation"],
        cursorWithIds := mapInsert s1.cursorWithIds s1.cursorWithIds.length "summary" }
  else s1

/-- A YAML value as built by `NewInstallConfig`. -/
inductive Yaml where
  | str (s : String)
  | bool (b : Bool)
  | strList (l : List String)
  | arr (l : List Yaml)
  | map (kvs : List (String × Yaml))
  deriving Repr

/-- The `model` fields `NewInstallConfig` reads. -/
structure sessionState where
  disk : String
  username : String
  password : String
  sshKeys : List String
  extraFields : List (String × Yaml)

/-- The structured configuration document of config.go. -/
structure InstallConfig where
  install : List (String × Yaml)
  stages : List (String × Yaml)
  extraFields : List (String × Yaml)

/-- The user/credentials stage block built by `NewInstallConfig`: one
stage entry with a hard-coded `kairos` user carrying the password and
the SSH keys. -/
def userStageBlock (m : sessionState) : Yaml :=
  .arr [ .map
    [ ("name", .str "Set user and password"),
      ("users", .map
        [ ("kairos", .map
            [ ("passwd", .str m.password),
              ("groups", .strList ["admin"]),
              ("ssh_authorized_keys", .strList m.sshKeys) ]) ]) ] ]

/-- `NewInstallConfig` (config.go, lines 20-57): always set the device;
with non-empty username and password, place the user block under
`network` when SSH keys are present and under `initramfs` otherwise;
with empty credentials set `install.nousers` instead. -/
def NewInstallConfig (m : sessionState) : InstallConfig :=
  if m.username ≠ "" ∧ m.password ≠ "" then
    { install := [("device", .str m.disk)]
      stages :=
        [((if m.sshKeys ≠ [] then "network" else "initramfs"), userStageBlock m)]
      extraFields := m.extraFields }
  else
    { install := [("device", .str m.disk), ("nousers", .bool true)]
      stages := []
      extraFields := m.extraFields }

/-- Phases of the installation process monitor as the spec names them. -/
inductive MonitorPhase where
  | notStarted
  | running
  | abortRequested
  | completed
  | failed
  | aborted
  deriving Repr, DecidableEq

/-- Commands of the spec-modelled abort protocol. -/
inductive MonCmd where
  | killAndQuit
  | resumePolling
  deriving Repr, DecidableEq

/-- Modelled from the spec: the abort-confirmation overlay of the
Installation Process Monitor (spec sections 4.2 and 8) is not present
in the provided sources — the sources' key hijack swallows every key on
the install page and no overlay state, interrupt key or `y`/`n`
handling exists there.  Per the spec, the monitor carries an overlay
phase next to the Progress Cursor and the undrained output-channel
content. -/
structure Monitor where
  phase : MonitorPhase
  cursor : Nat
  pending : List String
  deriving Repr, DecidableEq

/-- Modelled from the spec: the distinguished interrupt (abort) key. -/
def interruptKey : String := "ctrl+c"

/-- Modelled from the spec: key handling of the abort protocol (spec
section 4.2).  While `Running`, the interrupt key enters
`AbortRequested`; in the overlay, `y` kills the child and exits, `n`
returns to `Running` and resumes polling.  Only input is intercepted:
no branch drains `pending` or moves `cursor`. -/
def Monitor.handleKey (mon : Monitor) (k : String) : Monitor × Option MonCmd :=
  match mon.phase with
  | .running =>
      if k = interruptKey then ({ mon with phase := .abortRequested }, none)
      else (mon, none)
  | .abortRequested =>
      if k = "y" then ({ mon with phase := .aborted }, some .killAndQuit)
      else if k = "n" then ({ mon with phase := .running }, some .resumePolling)
      else (mon, none)
  | _ => (mon, none)

/-- `initialModel` from the source: wizard pages in registry order, the
first page current, an empty navigation stack. -/
def initialModel : model :=
  { pageIDs := wizardPageIDs
    currentPageID := "disk_selection"
    navigationStack := []
    installPage := newInstallProcessPage
    width := 0
    height := 0 }

/-- The descriptor list exhibiting the registration bug: `ssh` is a
substring of the pre-registered `ssh_keys` value, so it is skipped,
leaving a gap in the option indices. -/
def c4yaml : List YAMLPrompt :=
  [{ yamlSection := "ssh", bool := false },
   { yamlSection := "foo", bool := false }]

/-- A reachable state on the confirmation page, arrived at from the
disk-selection page (so the stack holds `disk_selection`). -/
def exConfirm : model :=
  { pageIDs := wizardPageIDs
    currentPageID := "confirmation"
    navigationStack := ["disk_selection"]
    installPage := newInstallProcessPage
    width := 80
    height := 24 }

/-- A state with the install page current and the installation still in
progress (cursor at 0, below the terminal index 6). -/
def exInstalling : model :=
  { pageIDs := wizardPageIDs
    currentPageID := installProcessID
    navigationStack := ["customization"]
    installPage := newInstallProcessPage
    width := 80
    height := 24 }

/-- A state with the install page current and the Progress Cursor at
the terminal index. -/
def exInstalled : model :=
  { pageIDs := wizardPageIDs
    currentPageID := installProcessID
    navigationStack := ["customization"]
    installPage := { newInstallProcessPage with
                      progress := 6, step := "Installation complete!" }
    width := 80
    height := 24 }

/-- Claim C1, counterexample.  After the step notification for
`Installing base system...` (index 3), the late notification for
`Partitioning disk...` (index 1) moves the Progress Cursor BACK to 1:
the monitor does not take the greater of the current value and the
notified index, and the cursor is not non-decreasing. -/
theorem C1_cex :
    (installRun newInstallProcessPage
        [.line "STEP:Installing base system...",
         .line "STEP:Partitioning disk..."]).progress = 1
      ∧ (installRun newInstallProcessPage
          [.line "STEP:Installing base system..."]).progress = 3
      ∧ ¬ (1 : Nat) ≥ 3 := by
  decide

/-- Claim C1, amended.  Whenever the monitor polls and a step-change
notification is available whose step name occurs in the step list, the
Progress Cursor is SET to the first index of that step — regardless of
the cursor's current value, so late/out-of-order notifications can move
it backward — the step text is replaced, and polling continues
immediately. -/
theorem C1_thm (p : installProcessPage) (output : String) (i : Nat)
    (hstep : strHasTag stepTag output = true)
    (hfind : p.steps.findIdx? (fun s => s == dropTag stepTag output) = some i) :
    installProcessPage.update p (.line output)
      = ({ p with progress := i, step := dropTag stepTag output },
         some InstallCmd.checkNow) := by
  simp [installProcessPage.update, hstep, hfind]

/-- Claim C1, witness: the notification for `Partitioning disk...`
sets the cursor of the fresh page to index 1. -/
theorem C1_wit :
    installProcessPage.update newInstallProcessPage
        (.line "STEP:Partitioning disk...")
      = ({ newInstallProcessPage with
            progress := 1,
            step := dropTag stepTag "STEP:Partitioning disk..." },
         some InstallCmd.checkNow) :=
  C1_thm newInstallProcessPage "STEP:Partitioning disk..." 1
    (by decide) (by decide)

/-- Claim C4: the code contradicts its intended idempotence.  With
descriptors `[ssh, foo]`, the first `Init` skips `ssh` (substring of
`ssh_keys`), stores `foo` under key `3 = startIdx + 1`, and then the
summary assignment at key `len(map) = 3` OVERWRITES the `foo` entry.
The second `Init` with the same list therefore no longer finds `foo`,
appends the menu option `Configure foo` a second time and registers a
second page with identifier `foo`. -/
theorem C4_bug :
    (custInit (custInit newCustomizationPage c4yaml) c4yaml).options
        = ["User & Password", "SSH Keys", "Configure foo",
           "Finish Customization and start Installation", "Configure foo"]
      ∧ (custInit (custInit newCustomizationPage c4yaml) c4yaml).registeredPages
        = [("foo", false), ("foo", false)]
      ∧ (custInit newCustomizationPage c4yaml).registeredPages = [("foo", false)]
      ∧ custInit (custInit newCustomizationPage c4yaml) c4yaml
        ≠ custInit newCustomizationPage c4yaml := by
  decide

/-- Claim C5: when the completion signal fires (the installer process
finished and closed its channel) with no error notification pending,
the monitor jumps the Progress Cursor to the last step index, shows the
terminal step, and returns no follow-up command — polling stops. -/
theorem C5_thm (p : installProcessPage) :
    installProcessPage.update p .doneSignal
      = ({ p with progress := p.steps.length - 1,
                  step := p.steps.getD (p.steps.length - 1) "" },
         (none : Option InstallCmd))
      ∧ (installProcessPage.update newInstallProcessPage .doneSignal).1.progress
        = installSteps.length - 1 := by
  exact ⟨rfl, by decide⟩

/-- Claim C6, counterexample.  On the error notification `ERROR:boom`,
the current-step text becomes `Error: boom`, which is not the error
message `boom` itself: the code prepends `Error: `. -/
theorem C6_cex :
    (installProcessPage.update newInstallProcessPage (.line "ERROR:boom")).1.step
        = "Error: boom"
      ∧ ("Error: boom" : String) ≠ "boom" := by
  decide

/-- Claim C6, amended.  When an error notification is available at a
poll, the monitor enters the terminal failed presentation: the
current-step text becomes the error message prefixed with `Error: `,
the Progress Cursor is left unchanged, and no follow-up command is
returned — polling stops. -/
theorem C6_thm (p : installProcessPage) (output : String)
    (hnstep : strHasTag stepTag output = false)
    (herr : strHasTag errorTag output = true) :
    installProcessPage.update p (.line output)
      = ({ p with step := "Error: " ++ dropTag errorTag output },
         (none : Option InstallCmd)) := by
  simp [installProcessPage.update, hnstep, herr]

/-- Claim C6, witness at the concrete error line `ERROR:boom`. -/
theorem C6_wit :
    installProcessPage.update newInstallProcessPage (.line "ERROR:boom")
      = ({ newInstallProcessPage with
            step := "Error: " ++ dropTag errorTag "ERROR:boom" },
         (none : Option InstallCmd)) :=
  C6_thm newInstallProcessPage "ERROR:boom" (by decide) (by decide)

/-- Claim C8 (spec-modelled): entering the abort overlay from `Running`
with the interrupt key and then declining with `n` restores exactly the
original monitor state — phase back to `Running`, Progress Cursor and
the undrained channel content untouched — and resumes polling. -/
theorem C8_thm (mon : Monitor) (h : mon.phase = MonitorPhase.running) :
    (Monitor.handleKey (Monitor.handleKey mon interruptKey).1 "n").1 = mon
      ∧ (Monitor.handleKey (Monitor.handleKey mon interruptKey).1 "n").2
        = some MonCmd.resumePolling := by
  cases mon with
  | mk phase cursor pending =>
      simp only at h
      subst h
      simp [Monitor.handleKey, interruptKey]

/-- Claim C8, witness at a concrete running monitor with a pending
notification. -/
theorem C8_wit :
    (Monitor.handleKey
        (Monitor.handleKey
          { phase := MonitorPhase.running, cursor := 2,
            pending := ["STEP:Formatting partitions..."] } interruptKey).1
        "n").1
      = { phase := MonitorPhase.running, cursor := 2,
          pending := ["STEP:Formatting partitions..."] } :=
  (C8_thm
    { phase := MonitorPhase.running, cursor := 2,
      pending := ["STEP:Formatting partitions..."] } rfl).1

/-- Claim C9: with non-empty credentials and no SSH keys the user block
is placed under the `initramfs` stage and no `nousers` flag is emitted;
with at least one SSH key the same user block moves to the `network`
stage; with empty credentials no stage is emitted and the install
section carries `nousers: true`. -/
theorem C9_thm (m : sessionState) :
    (m.username ≠ "" → m.password ≠ "" → m.sshKeys = [] →
        (NewInstallConfig m).stages = [("initramfs", userStageBlock m)]
          ∧ (NewInstallConfig m).install = [("device", .str m.disk)])
      ∧ (m.username ≠ "" → m.password ≠ "" → m.sshKeys ≠ [] →
        (NewInstallConfig m).stages = [("network", userStageBlock m)]
          ∧ (NewInstallConfig m).install = [("device", .str m.disk)])
      ∧ ((m.username = "" ∨ m.password = "") →
        (NewInstallConfig m).stages = []
          ∧ (NewInstallConfig m).install
            = [("device", .str m.disk), ("nousers", .bool true)]) := by
  refine ⟨fun hu hp hk => ?_, fun hu hp hk => ?_, fun h => ?_⟩
  · simp [NewInstallConfig, hu, hp, hk]
  · simp [NewInstallConfig, hu, hp, hk]
  · rcases h with h | h <;> simp [NewInstallConfig, h]

/-- Claim C9, witness at the spec's scenario: device `/dev/sda`,
credentials `admin`/`secret`, first with no SSH keys, then with one
key, then with empty credentials. -/
theorem C9_wit :
    (NewInstallConfig
        { disk := "/dev/sda", username := "admin", password := "secret",
          sshKeys := [], extraFields := [] }).stages
      = [("initramfs",
          userStageBlock
            { disk := "/dev/sda", username := "admin", password := "secret",
              sshKeys := [], extraFields := [] })]
    ∧ (NewInstallConfig
        { disk := "/dev/sda", username := "admin", password := "secret",
          sshKeys := ["ssh-rsa AAA"], extraFields := [] }).stages
      = [("network",
          userStageBlock
            { disk := "/dev/sda", username := "admin", password := "secret",
              sshKeys := ["ssh-rsa AAA"], extraFields := [] })]
    ∧ (NewInstallConfig
        { disk := "/dev/sda", username := "", password := "",
          sshKeys := [], extraFields := [] }).install
      = [("device", .str "/dev/sda"), ("nousers", .bool true)] :=
  ⟨((C9_thm _).1 (by decide) (by decide) rfl).1,
   ((C9_thm _).2.1 (by decide) (by decide) (by decide)).1,
   ((C9_thm _).2.2 (Or.inl rfl)).2⟩

/-- The current page's update leaves the page registry unchanged. -/
theorem pagesUpdate_pageIDs (m : model) (idx : Nat) (msg : Msg) :
    (m.pagesUpdate idx msg).1.pageIDs = m.pageIDs := by
  unfold model.pagesUpdate
  split
  · cases msg <;> rfl
  · rfl

/-- The current page's update leaves the current-page identifier
unchanged. -/
theorem pagesUpdate_currentPageID (m : model) (idx : Nat) (msg : Msg) :
    (m.pagesUpdate idx msg).1.currentPageID = m.currentPageID := by
  unfold model.pagesUpdate
  split
  · cases msg <;> rfl
  · rfl

/-- The current page's update leaves the navigation stack unchanged. -/
theorem pagesUpdate_stack (m : model) (idx : Nat) (msg : Msg) :
    (m.pagesUpdate idx msg).1.navigationStack = m.navigationStack := by
  unfold model.pagesUpdate
  split
  · cases msg <;> rfl
  · rfl

/-- On a key message the current page's update is the identity on the
tracked state (the install page only reacts to the polling message). -/
theorem pagesUpdate_key (m : model) (idx : Nat) (k : String) :
    (m.pagesUpdate idx (Msg.key k)).1 = m := by
  unfold model.pagesUpdate
  split <;> rfl

/-- One controller step changes the navigation-stack depth by exactly
`+1` on a successful forward transition, `-1` on a successful back, and
`0` otherwise. -/
theorem stack_step (m : model) (msg : Msg) :
    ((model.update m msg).1.navigationStack).length
        + (if isBackB m msg then 1 else 0)
      = m.navigationStack.length + (if isForwardB m msg then 1 else 0) := by
  cases hf : m.pageIDs.findIdx? (fun s => s == m.currentPageID) with
  | none => simp [model.update, isBackB, isForwardB, hf]
  | some idx =>
    cases msg with
    | windowSize w h =>
        simp [model.update, isBackB, isForwardB, hf, Msg.isKey]
    | checkInstaller r =>
        simp [model.update, model.navSection, isBackB, isForwardB, hf,
          Msg.isKey, pagesUpdate_stack]
    | nextPage =>
        by_cases hlt : idx < m.pageIDs.length - 1 <;>
          simp [model.update, model.navSection, isBackB, isForwardB, hf,
            Msg.isKey, pagesUpdate_stack, pagesUpdate_pageIDs,
            pagesUpdate_currentPageID, hlt]
    | goToPage id =>
        by_cases hid : id = ""
        · simp [model.update, model.navSection, isBackB, isForwardB, hf,
            Msg.isKey, pagesUpdate_stack, pagesUpdate_pageIDs, hid]
        · cases hg : m.pageIDs.findIdx? (fun s => s == id) with
          | none =>
              simp [model.update, model.navSection, isBackB, isForwardB, hf,
                Msg.isKey, pagesUpdate_stack, pagesUpdate_pageIDs, hid, hg]
          | some i =>
              simp [model.update, model.navSection, isBackB, isForwardB, hf,
                Msg.isKey, pagesUpdate_stack, pagesUpdate_pageIDs, hid, hg]
    | key k =>
        by_cases hi : m.isInstallAt idx
        · by_cases hp : m.installPage.progress < m.installPage.steps.length - 1 <;>
            simp [model.update, isBackB, isForwardB, hf, Msg.isKey, hi, hp]
        · by_cases hq : (k == "ctrl+c" || k == "q") = true
          · have hq' : k = "ctrl+c" ∨ k = "q" := by simpa using hq
            have hesc : (k == "esc") = false := by
              rcases hq' with h | h <;> subst h <;> decide
            simp [model.update, isBackB, isForwardB, hf, Msg.isKey, hi, hq, hesc]
          · by_cases he : (k == "esc" && !m.navigationStack.isEmpty) = true
            · have he' : k = "esc" ∧ m.navigationStack ≠ [] := by
                simpa using he
              have hlen : 1 ≤ m.navigationStack.length :=
                List.length_pos.mpr he'.2
              simp [model.update, isBackB, isForwardB, hf, Msg.isKey, hi, hq, he,
                List.length_dropLast]
              omega
            · simp [model.update, model.navSection, isBackB, isForwardB, hf,
                Msg.isKey, hi, hq, he, pagesUpdate_stack, pagesUpdate_key]

/-- Along any message trace, the stack depth plus the successful backs
equals the starting depth plus the successful forward transitions. -/
theorem run_invariant (msgs : List Msg) :
    ∀ m : model,
      (model.run m msgs).navigationStack.length + countBck m msgs
        = m.navigationStack.length + countFwd m msgs := by
  induction msgs with
  | nil => intro m; simp [model.run, countBck, countFwd]
  | cons msg rest ih =>
      intro m
      have h1 := stack_step m msg
      have h2 := ih (model.update m msg).1
      simp only [model.run, countBck, countFwd]
      omega

/-- The back key with an empty stack leaves the tracked model state —
current page identifier, stack, registry, install page — unchanged. -/
theorem esc_empty_noop (m : model) (h : m.navigationStack = []) :
    (model.update m (Msg.key "esc")).1 = m := by
  cases hf : m.pageIDs.findIdx? (fun s => s == m.currentPageID) with
  | none => simp [model.update, hf]
  | some idx =>
      by_cases hi : m.isInstallAt idx
      · by_cases hp : m.installPage.progress < m.installPage.steps.length - 1 <;>
          simp [model.update, hf, Msg.isKey, hi, hp]
      · simp [model.update, model.navSection, hf, Msg.isKey, hi, h,
          pagesUpdate_key]

/-- Claim C2, counterexample.  On the confirmation page (registry index
1) with `disk_selection` on the stack, the back key pops and activates
`disk_selection` (registry index 0) but the returned command runs
`pages[1].Init()` — the initialize step of the page being LEFT, not of
the re-activated popped page, because `currentIdx` is the index
computed before the pop. -/
theorem C2_cex :
    (model.update exConfirm (Msg.key "esc")).1.currentPageID = "disk_selection"
      ∧ (model.update exConfirm (Msg.key "esc")).1.navigationStack = []
      ∧ (model.update exConfirm (Msg.key "esc")).2 = some (Cmd.initOf 1)
      ∧ wizardPageIDs.findIdx? (fun s => s == "disk_selection") = some 0
      ∧ Cmd.initOf 1 ≠ Cmd.initOf 0 := by
  decide

/-- Claim C2, amended.  Whenever the navigation stack is non-empty and
the current page is resolvable and is not the install page (whose key
hijack swallows the back key), the back key pops exactly the most
recent identifier, makes that popped page current, and returns the
initialize command of the page that was current BEFORE the pop. -/
theorem C2_thm (m : model) (idx : Nat)
    (hf : m.pageIDs.findIdx? (fun s => s == m.currentPageID) = some idx)
    (hni : m.isInstallAt idx = false)
    (hs : m.navigationStack ≠ []) :
    model.update m (.key "esc")
      = ({ m with currentPageID := m.navigationStack.getLastD "",
                  navigationStack := m.navigationStack.dropLast },
         some (Cmd.initOf idx)) := by
  have h1 : (("esc" == "ctrl+c") || ("esc" == "q")) = false := by decide
  have h2 : m.navigationStack.isEmpty = false := by
    cases h : m.navigationStack with
    | nil => exact absurd h hs
    | cons a l => rfl
  simp [model.update, hf, hni, Msg.isKey, h1, h2]

/-- Claim C2, witness on the confirmation page. -/
theorem C2_wit :
    model.update exConfirm (.key "esc")
      = ({ exConfirm with
            currentPageID := exConfirm.navigationStack.getLastD "",
            navigationStack := exConfirm.navigationStack.dropLast },
         some (Cmd.initOf 1)) :=
  C2_thm exConfirm 1 (by decide) (by decide) (by decide)

/-- Claim C3: starting from an empty navigation stack, after any
message trace the stack depth equals the number of successful forward
transitions minus the number of successful backs (stated additively);
and a back key press with an empty stack leaves the tracked model state
— in particular the current page and the stack — unchanged. -/
theorem C3_thm :
    (∀ (m : model) (msgs : List Msg), m.navigationStack = [] →
        (model.run m msgs).navigationStack.length + countBck m msgs
          = countFwd m msgs)
      ∧ ∀ m : model, m.navigationStack = [] →
          (model.update m (Msg.key "esc")).1 = m := by
  constructor
  · intro m msgs h
    have := run_invariant msgs m
    rw [h] at this
    simpa using this
  · exact esc_empty_noop

/-- Claim C3, witness: a concrete trace from the initial model — goto
confirmation (push), advance (push), back (pop), back (pop), back on
the now-empty stack (no-op) — and the no-op of back at the start. -/
theorem C3_wit :
    ((model.run initialModel
          [Msg.goToPage "confirmation", Msg.nextPage, Msg.key "esc",
           Msg.key "esc", Msg.key "esc"]).navigationStack.length
        + countBck initialModel
            [Msg.goToPage "confirmation", Msg.nextPage, Msg.key "esc",
             Msg.key "esc", Msg.key "esc"]
      = countFwd initialModel
          [Msg.goToPage "confirmation", Msg.nextPage, Msg.key "esc",
           Msg.key "esc", Msg.key "esc"])
      ∧ (model.update initialModel (Msg.key "esc")).1 = initialModel :=
  ⟨C3_thm.1 initialModel _ rfl, C3_thm.2 initialModel rfl⟩

/-- Claim C7, counterexample.  While the install page is current with
the cursor below the terminal index, even the interrupt key `ctrl+c` —
the one key the claim exempts — is swallowed: the model is unchanged
and no quit command is produced, because the hijack intercepts every
key before the `ctrl+c`/`q` quit handler can see it. -/
theorem C7_cex :
    model.update exInstalling (Msg.key "ctrl+c") = (exInstalling, none)
      ∧ (none : Option Cmd) ≠ some Cmd.quit := by
  decide

/-- Claim C7, amended.  While the install page is current and the
Progress Cursor is below the terminal index, EVERY raw key event —
including the interrupt key — is swallowed by the top-level controller:
the model is returned unchanged with no command, so no key press can
change the current page, quit the application, or reach another page's
handler. -/
theorem C7_thm (m : model) (idx : Nat) (k : String)
    (hf : m.pageIDs.findIdx? (fun s => s == m.currentPageID) = some idx)
    (hi : m.isInstallAt idx = true)
    (hp : m.installPage.progress < m.installPage.steps.length - 1) :
    model.update m (.key k) = (m, none) := by
  simp [model.update, hf, hi, Msg.isKey, hp]

/-- Claim C7, witness: an arbitrary letter key during the install. -/
theorem C7_wit :
    model.update exInstalling (.key "a") = (exInstalling, none) :=
  C7_thm exInstalling 6 "a" (by decide) (by decide) (by decide)

/-- Claim C10: once the install page is current and the Progress Cursor
has reached the terminal index, every key press — any key whatsoever —
returns the quit command, exiting the application. -/
theorem C10_thm (m : model) (idx : Nat) (k : String)
    (hf : m.pageIDs.findIdx? (fun s => s == m.currentPageID) = some idx)
    (hi : m.isInstallAt idx = true)
    (hp : ¬ m.installPage.progress < m.installPage.steps.length - 1) :
    model.update m (.key k) = (m, some Cmd.quit) := by
  simp [model.update, hf, hi, Msg.isKey, hp]

/-- Claim C10, witness: the letter key `x` on the completed install
page quits. -/
theorem C10_wit :
    model.update exInstalled (.key "x") = (exInstalled, some Cmd.quit) :=
  C10_thm exInstalled 6 "x" (by decide) (by decide) (by decide)

end Tui
